import Mathlib

/-!
Verification of the tfdrift-operator drift-detection core.

This file embeds, as executable Lean definitions, the fingerprint/hashing
code of `internal/drift/hash.go` (together with its constants in
`internal/drift/constants.go`) and the per-resource reconciliation decision
logic shared by `DeploymentReconciler.Reconcile` and
`ServiceReconciler.Reconcile` (`internal/controller/deployment_controller.go`
and the service controller), and proves (or refutes) the specified
properties of that code.

Modelling conventions:
 - Go `map[string]string` values become association lists
   `List (String × String)`; lookup takes the first matching key, matching
   the unique-key invariant of Go maps. A nil map and an empty map both
   behave as `[]` wherever the code treats them identically.
 - Go's `encoding/json.Marshal` is modelled field-by-field for the exact
   struct/tag layout used by the fingerprint types, including `omitempty`
   semantics and sorted map keys, producing the same byte string Go would
   produce for ASCII data.
 - `sort.Slice` with a `less` closure is modelled by an insertion sort
   parameterised by the same `less` function.  (Go's sort is unstable; for
   inputs whose sort keys are all distinct the result is the same for any
   correct sort, and the nondeterminism on tied keys is exhibited in this
   model as dependence of the output on the input order.)
 - SHA-256 is implemented in full (FIPS 180-4) over byte lists, with the
   hex rendering used by `hex.EncodeToString`.
 - `time.Now()` is passed to the reconciler as an explicit `now : String`
   argument; the event recorder's output is returned as a list of events.
-/

namespace Tfdrift

set_option maxRecDepth 1000000

/-! ## Byte-level helpers: UTF-8, hex, SHA-256 (crypto/sha256, encoding/hex) -/

def hexDigit (n : Nat) : Char :=
  if n < 10 then Char.ofNat (48 + n) else Char.ofNat (87 + n)

def byteToHex (b : Nat) : List Char :=
  [hexDigit (b / 16 % 16), hexDigit (b % 16)]

def utf8Bytes (c : Char) : List Nat :=
  let n := c.toNat
  if n < 128 then [n]
  else if n < 2048 then [192 + n / 64, 128 + n % 64]
  else if n < 65536 then [224 + n / 4096, 128 + n / 64 % 64, 128 + n % 64]
  else [240 + n / 262144, 128 + n / 4096 % 64, 128 + n / 64 % 64, 128 + n % 64]

def strBytes (s : String) : List Nat :=
  (s.data.map utf8Bytes).flatten

def rotr32 (n x : Nat) : Nat :=
  ((x >>> n) ||| (x <<< (32 - n))) % 4294967296

def shr32 (n x : Nat) : Nat := x >>> n

def bigSigma0 (x : Nat) : Nat := (rotr32 2 x) ^^^ (rotr32 13 x) ^^^ (rotr32 22 x)
def bigSigma1 (x : Nat) : Nat := (rotr32 6 x) ^^^ (rotr32 11 x) ^^^ (rotr32 25 x)
def smallSigma0 (x : Nat) : Nat := (rotr32 7 x) ^^^ (rotr32 18 x) ^^^ (shr32 3 x)
def smallSigma1 (x : Nat) : Nat := (rotr32 17 x) ^^^ (rotr32 19 x) ^^^ (shr32 10 x)
def chFn (x y z : Nat) : Nat := (x &&& y) ^^^ ((4294967295 - x) &&& z)
def majFn (x y z : Nat) : Nat := (x &&& y) ^^^ (x &&& z) ^^^ (y &&& z)

/-- The SHA-256 round constants (FIPS 180-4 section 4.2.2: the first 32
bits of the fractional parts of the cube roots of the first 64 primes),
as decimal values. -/
def sha256K : List Nat :=
  [1116352408, 1899447441, 3049323471, 3921009573, 961987163, 1508970993,
   2453635748, 2870763221, 3624381080, 310598401, 607225278, 1426881987,
   1925078388, 2162078206, 2614888103, 3248222580, 3835390401, 4022224774,
   264347078, 604807628, 770255983, 1249150122, 1555081692, 1996064986,
   2554220882, 2821834349, 2952996808, 3210313671, 3336571891, 3584528711,
   113926993, 338241895, 666307205, 773529912, 1294757372, 1396182291,
   1695183700, 1986661051, 2177026350, 2456956037, 2730485921, 2820302411,
   3259730800, 3345764771, 3516065817, 3600352804, 4094571909, 275423344,
   430227734, 506948616, 659060556, 883997877, 958139571, 1322822218,
   1537002063, 1747873779, 1955562222, 2024104815, 2227730452, 2361852424,
   2428436474, 2756734187, 3204031479, 3329325298]

/-- The SHA-256 initial hash value (FIPS 180-4 section 5.3.3: the first 32
bits of the fractional parts of the square roots of the first 8 primes). -/
def sha256H0 : List Nat :=
  [1779033703, 3144134277, 1013904242, 2773480762,
   1359893119, 2600822924, 528734635, 1541459225]

def toBytesBE (n x : Nat) : List Nat :=
  (List.range n).map (fun i => x >>> (8 * (n - 1 - i)) % 256)

def padMessage (msg : List Nat) : List Nat :=
  let l := msg.length
  let padZeros := (119 - l % 64) % 64
  msg ++ [128] ++ List.replicate padZeros 0 ++ toBytesBE 8 (8 * l)

def chunksOfAux (n : Nat) : List Nat → Nat → List (List Nat)
  | _, 0 => []
  | l, fuel + 1 => if l = [] then [] else l.take n :: chunksOfAux n (l.drop n) fuel

/-- Split a list into chunks of `n` bytes (`n > 0` at every use site);
the fuel argument makes the recursion structural. -/
def chunksOf (n : Nat) (l : List Nat) : List (List Nat) :=
  chunksOfAux n l l.length

def wordsOfBlock (block : List Nat) : List Nat :=
  (chunksOf 4 block).map (fun b =>
    b.getD 0 0 * 16777216 + b.getD 1 0 * 65536 + b.getD 2 0 * 256 + b.getD 3 0)

def scheduleExtend : List Nat → Nat → List Nat
  | ws, 0 => ws
  | ws, fuel + 1 =>
    let n := ws.length
    let w := (smallSigma1 (ws.getD (n - 2) 0) + ws.getD (n - 7) 0 +
              smallSigma0 (ws.getD (n - 15) 0) + ws.getD (n - 16) 0) % 4294967296
    scheduleExtend (ws ++ [w]) fuel

def compressStep (st : List Nat) (kw : Nat × Nat) : List Nat :=
  let a := st.getD 0 0
  let b := st.getD 1 0
  let c := st.getD 2 0
  let d := st.getD 3 0
  let e := st.getD 4 0
  let f := st.getD 5 0
  let g := st.getD 6 0
  let h := st.getD 7 0
  let t1 := (h + bigSigma1 e + chFn e f g + kw.1 + kw.2) % 4294967296
  let t2 := (bigSigma0 a + majFn a b c) % 4294967296
  [(t1 + t2) % 4294967296, a, b, c, (d + t1) % 4294967296, e, f, g]

def compressBlock (h : List Nat) (block : List Nat) : List Nat :=
  let ws := scheduleExtend (wordsOfBlock block) 48
  let st := (sha256K.zip ws).foldl compressStep h
  (h.zip st).map (fun p => (p.1 + p.2) % 4294967296)

def sha256Bytes (msg : List Nat) : List Nat :=
  let hFinal := (chunksOf 64 (padMessage msg)).foldl compressBlock sha256H0
  (hFinal.map (toBytesBE 4)).flatten

def sha256Hex (msg : List Nat) : String :=
  String.mk ((sha256Bytes msg).map byteToHex).flatten

/-! ## JSON encoding (Go encoding/json, as used by hashJSON)

Go's `json.Marshal` serialises struct fields in declaration order using the
field tags of hash.go, emits map entries sorted by key, HTML-escapes by
default, and applies `omitempty`.  The helpers below reproduce exactly that
byte output (for the concrete struct shapes of hash.go). -/

def escChar (c : Char) : String :=
  if c = '"' then "\\\""
  else if c = '\\' then "\\\\"
  else if c = '\n' then "\\n"
  else if c = '\r' then "\\r"
  else if c = '\t' then "\\t"
  else if c = '<' then "\\u003c"
  else if c = '>' then "\\u003e"
  else if c = '&' then "\\u0026"
  else if c.toNat < 32 then
    String.mk ('\\' :: 'u' :: '0' :: '0' :: byteToHex c.toNat)
  else if c.toNat = 8232 then "\\u2028"
  else if c.toNat = 8233 then "\\u2029"
  else String.singleton c

def jsonEscape (s : String) : String :=
  String.join (s.data.map escChar)

def jstr (s : String) : String :=
  "\"" ++ jsonEscape s ++ "\""

/-- joinComma models the comma-joining of JSON object members / array
elements performed by the encoder. -/
def joinComma : List String → String
  | [] => ""
  | [x] => x
  | x :: y :: rest => x ++ "," ++ joinComma (y :: rest)

/-- A JSON object from optional members (an `omitempty` field that is empty
contributes `none`). Each member string is already of the form `"key":value`. -/
def jsonObj (fields : List (Option String)) : String :=
  "\x7b" ++ joinComma (fields.filterMap id) ++ "\x7d"

def jsonArr (elems : List String) : String :=
  "[" ++ joinComma elems ++ "]"

/-! ## sort.Slice and strings.TrimSpace models -/

/-- Model of Go `sort.Slice` with comparison closure `less`: insertion sort.
`insertBy` places `x` after every already-placed element `y` with
`less y x = true`. -/
def insertBy (less : α → α → Bool) (x : α) : List α → List α
  | [] => [x]
  | y :: ys => if less y x then y :: insertBy less x ys else x :: y :: ys

def sortBy (less : α → α → Bool) : List α → List α
  | [] => []
  | x :: xs => insertBy less x (sortBy less xs)

/-- Go `unicode.IsSpace` restricted to the characters it accepts
(Latin-1 range plus the property ranges; only the Latin-1 part is ever hit
by the specs modelled here, and the full set is reproduced for it). -/
def isGoSpace (c : Char) : Bool :=
  c = ' ' || c = '\t' || c = '\n' || c.toNat = 11 || c.toNat = 12 || c = '\r' ||
  c.toNat = 133 || c.toNat = 160

/-- Model of Go `strings.TrimSpace`. -/
def trimSpace (s : String) : String :=
  String.mk (((s.data.dropWhile isGoSpace).reverse.dropWhile isGoSpace).reverse)

/-- Byte-wise string comparison (Go `<` on strings compares UTF-8 bytes;
on the character level this is codepoint order, identical for valid UTF-8). -/
def charListLess : List Char → List Char → Bool
  | [], [] => false
  | [], _ :: _ => true
  | _ :: _, [] => false
  | c :: cs, d :: ds => if c = d then charListLess cs ds else c.toNat < d.toNat

def goStringLess (a b : String) : Bool := charListLess a.data b.data

/-- json.Marshal of a `map[string]string`: entries sorted by key, each
rendered as `"k":"v"`. -/
def strPairLess (a b : String × String) : Bool := goStringLess a.1 b.1

def serializeStrMap (m : List (String × String)) : String :=
  "\x7b" ++ joinComma ((sortBy strPairLess m).map
    (fun kv => jstr kv.1 ++ ":" ++ jstr kv.2)) ++ "\x7d"

/-- A `map[string]string` field with `omitempty`: omitted when nil/empty. -/
def strMapFieldOpt (name : String) (m : List (String × String)) : Option String :=
  if m = [] then none else some (jstr name ++ ":" ++ serializeStrMap m)

def strFieldOpt (name v : String) : Option String :=
  if v = "" then none else some (jstr name ++ ":" ++ jstr v)

def intFieldOpt (name : String) (v : Int) : Option String :=
  if v = 0 then none else some (jstr name ++ ":" ++ toString v)

/-! ## Source data model (the fields of the Kubernetes objects that
hash.go reads; fields the code never touches are not represented, and the
opaque `EnvVarSource` an env var may reference is abstracted to an
identifying string, since the code only copies or drops it wholesale). -/

/-- intstr.IntOrString. -/
inductive IntOrString where
  | int (i : Int)
  | str (s : String)
deriving DecidableEq

/-- intstr.IntOrString.String(). -/
def IntOrString.goString : IntOrString → String
  | .int i => toString i
  | .str s => s

/-- intstr marshals an int as a JSON number and a string as a JSON string. -/
def IntOrString.toJson : IntOrString → String
  | .int i => toString i
  | .str s => jstr s

/-- corev1.EnvVar (name, literal value, optional indirect source). -/
structure EnvVar where
  name : String
  value : String
  valueFrom : Option String
deriving DecidableEq

/-- corev1.ContainerPort (the fields read by fingerprintPodTemplate). -/
structure ContainerPort where
  name : String
  containerPort : Int
  protocol : String
deriving DecidableEq

/-- corev1.ResourceRequirements with quantities in their canonical string
form (resource.Quantity marshals as its canonical string); the `claims`
field (omitempty, nil in every fingerprinted workload modelled here) is not
represented. -/
structure ResourceRequirements where
  limits : List (String × String)
  requests : List (String × String)
deriving DecidableEq

/-- corev1.Container (the fields read by fingerprintPodTemplate). -/
structure Container where
  name : String
  image : String
  env : List EnvVar
  ports : List ContainerPort
  resources : ResourceRequirements
deriving DecidableEq

/-- corev1.PodTemplateSpec (the fields read by fingerprintPodTemplate). -/
structure PodTemplateSpec where
  labels : List (String × String)
  templateAnnotations : List (String × String)
  containers : List Container
deriving DecidableEq

/-- appsv1.RollingUpdateDeployment. -/
structure RollingUpdateDeployment where
  maxUnavailable : Option IntOrString
  maxSurge : Option IntOrString
deriving DecidableEq

/-- appsv1.DeploymentStrategy. -/
structure DeploymentStrategy where
  type : String
  rollingUpdate : Option RollingUpdateDeployment
deriving DecidableEq

/-- appsv1.DeploymentSpec (the fields read by HashDeployment). -/
structure DeploymentSpec where
  replicas : Option Int
  strategy : DeploymentStrategy
  template : PodTemplateSpec
deriving DecidableEq

/-- corev1.ServicePort (the fields read by HashService). -/
structure ServicePort where
  name : String
  protocol : String
  port : Int
  targetPort : IntOrString
  nodePort : Int
deriving DecidableEq

/-- corev1.ServiceSpec (the fields read by HashService). -/
structure ServiceSpec where
  type : String
  selector : List (String × String)
  ports : List ServicePort
deriving DecidableEq

/-! ## Fingerprint structures (hash.go) -/

/-- drift.EnvVarFingerprint: tags `name`, `value,omitempty`. -/
structure EnvVarFingerprint where
  name : String
  value : String
deriving DecidableEq

/-- drift.ContainerPortFingerprint: tags `name,omitempty`,
`containerPort`, `protocol,omitempty`. -/
structure ContainerPortFingerprint where
  name : String
  containerPort : Int
  protocol : String
deriving DecidableEq

/-- drift.ContainerFingerprint: tags `name`, `image`, `env,omitempty`,
`ports,omitempty`, `resources,omitempty` (omitempty is inert on a struct
value, so resources is always emitted). -/
structure ContainerFingerprint where
  name : String
  image : String
  env : List EnvVarFingerprint
  ports : List ContainerPortFingerprint
  resources : ResourceRequirements
deriving DecidableEq

/-- drift.PodTemplateFingerprint: tags `labels,omitempty`,
`annotations,omitempty`, `containers`. -/
structure PodTemplateFingerprint where
  labels : List (String × String)
  templateAnnotations : List (String × String)
  containers : List ContainerFingerprint
deriving DecidableEq

/-- drift.DeploymentFingerprint: tags `replicas,omitempty` (a *int32:
omitted exactly when nil), `strategy,omitempty` (inert on a struct value),
`template`. -/
structure DeploymentFingerprint where
  replicas : Option Int
  strategy : DeploymentStrategy
  template : PodTemplateFingerprint
deriving DecidableEq

/-- drift.ServicePortFingerprint: tags `name,omitempty`,
`protocol,omitempty`, `port`, `targetPort`, `nodePort,omitempty`. -/
structure ServicePortFingerprint where
  name : String
  protocol : String
  port : Int
  targetPort : String
  nodePort : Int
deriving DecidableEq

/-- drift.ServiceFingerprint: tags `type`, `selector,omitempty`, `ports`. -/
structure ServiceFingerprint where
  type : String
  selector : List (String × String)
  ports : List ServicePortFingerprint
deriving DecidableEq

/-! ## json.Marshal output for each fingerprint type -/

def serializeIntOrStringOpt (name : String) : Option IntOrString → Option String
  | none => none
  | some v => some (jstr name ++ ":" ++ v.toJson)

def serializeRollingUpdate (r : RollingUpdateDeployment) : String :=
  jsonObj [serializeIntOrStringOpt "maxUnavailable" r.maxUnavailable,
           serializeIntOrStringOpt "maxSurge" r.maxSurge]

def serializeStrategy (s : DeploymentStrategy) : String :=
  jsonObj [strFieldOpt "type" s.type,
           s.rollingUpdate.map (fun r => jstr "rollingUpdate" ++ ":" ++ serializeRollingUpdate r)]

def serializeResources (r : ResourceRequirements) : String :=
  jsonObj [strMapFieldOpt "limits" r.limits,
           strMapFieldOpt "requests" r.requests]

def serializeEnvVarFingerprint (e : EnvVarFingerprint) : String :=
  jsonObj [some (jstr "name" ++ ":" ++ jstr e.name),
           strFieldOpt "value" e.value]

def serializeContainerPortFingerprint (p : ContainerPortFingerprint) : String :=
  jsonObj [strFieldOpt "name" p.name,
           some (jstr "containerPort" ++ ":" ++ toString p.containerPort),
           strFieldOpt "protocol" p.protocol]

def listFieldOpt (name : String) (elems : List String) : Option String :=
  if elems = [] then none else some (jstr name ++ ":" ++ jsonArr elems)

def serializeContainerFingerprint (c : ContainerFingerprint) : String :=
  jsonObj [some (jstr "name" ++ ":" ++ jstr c.name),
           some (jstr "image" ++ ":" ++ jstr c.image),
           listFieldOpt "env" (c.env.map serializeEnvVarFingerprint),
           listFieldOpt "ports" (c.ports.map serializeContainerPortFingerprint),
           some (jstr "resources" ++ ":" ++ serializeResources c.resources)]

def serializePodTemplateFingerprint (t : PodTemplateFingerprint) : String :=
  jsonObj [strMapFieldOpt "labels" t.labels,
           strMapFieldOpt "annotations" t.templateAnnotations,
           some (jstr "containers" ++ ":" ++
             jsonArr (t.containers.map serializeContainerFingerprint))]

def serializeDeploymentFingerprint (f : DeploymentFingerprint) : String :=
  jsonObj [f.replicas.map (fun n => jstr "replicas" ++ ":" ++ toString n),
           some (jstr "strategy" ++ ":" ++ serializeStrategy f.strategy),
           some (jstr "template" ++ ":" ++ serializePodTemplateFingerprint f.template)]

def serializeServicePortFingerprint (p : ServicePortFingerprint) : String :=
  jsonObj [strFieldOpt "name" p.name,
           strFieldOpt "protocol" p.protocol,
           some (jstr "port" ++ ":" ++ toString p.port),
           some (jstr "targetPort" ++ ":" ++ jstr p.targetPort),
           intFieldOpt "nodePort" p.nodePort]

def serializeServiceFingerprint (f : ServiceFingerprint) : String :=
  jsonObj [some (jstr "type" ++ ":" ++ jstr f.type),
           strMapFieldOpt "selector" f.selector,
           some (jstr "ports" ++ ":" ++
             jsonArr (f.ports.map serializeServicePortFingerprint))]

/-! ## Fingerprint construction (hash.go) -/

/-- The env-var projection inside fingerprintPodTemplate: the ValueFrom
reference is dropped ("MVP: ignore valueFrom for simplicity") but the entry
itself is kept with its name and literal value. -/
def fingerprintEnvVar (e : EnvVar) : EnvVarFingerprint :=
  { name := e.name, value := e.value }

/-- The port projection inside fingerprintPodTemplate. -/
def fingerprintPort (p : ContainerPort) : ContainerPortFingerprint :=
  { name := p.name, containerPort := p.containerPort, protocol := p.protocol }

/-- The container projection inside fingerprintPodTemplate. -/
def fingerprintContainer (c : Container) : ContainerFingerprint :=
  { name := c.name
    image := c.image
    env := c.env.map fingerprintEnvVar
    ports := c.ports.map fingerprintPort
    resources := c.resources }

/-- hash.go fingerprintPodTemplate. -/
def fingerprintPodTemplate (t : PodTemplateSpec) : PodTemplateFingerprint :=
  { labels := t.labels
    templateAnnotations := t.templateAnnotations
    containers := t.containers.map fingerprintContainer }

/-- hash.go canonicalizeMap: trim surrounding whitespace from every value
(keys untouched, no entry dropped). -/
def canonicalizeMap (m : List (String × String)) : List (String × String) :=
  m.map (fun kv => (kv.1, trimSpace kv.2))

/-- The container comparison closure of HashDeployment:
`Containers[i].Name < Containers[j].Name`. -/
def containerLess (a b : ContainerFingerprint) : Bool :=
  goStringLess a.name b.name

/-- The env comparison closure of HashDeployment: `Env[a].Name < Env[b].Name`. -/
def envLess (a b : EnvVarFingerprint) : Bool :=
  goStringLess a.name b.name

/-- The port comparison closure of HashDeployment: by ContainerPort, ties by
Name (Protocol takes no part in the ordering). -/
def portLess (a b : ContainerPortFingerprint) : Bool :=
  if a.containerPort = b.containerPort then goStringLess a.name b.name
  else a.containerPort < b.containerPort

/-- The port comparison closure of HashService: by Port, ties by Name. -/
def servicePortLess (a b : ServicePortFingerprint) : Bool :=
  if a.port = b.port then goStringLess a.name b.name else a.port < b.port

/-- The per-container canonicalisation of HashDeployment: sort env by name
and ports by (containerPort, name). -/
def sortContainerInner (c : ContainerFingerprint) : ContainerFingerprint :=
  { c with env := sortBy envLess c.env, ports := sortBy portLess c.ports }

/-- The canonicalisation steps of HashDeployment, in source order:
trim label/annotation values, sort containers by name, then sort each
container's env by name and ports by (containerPort, name). -/
def deploymentCanonicalFingerprint (d : DeploymentSpec) : DeploymentFingerprint :=
  let fp0 := fingerprintPodTemplate d.template
  { replicas := d.replicas
    strategy := d.strategy
    template :=
      { labels := canonicalizeMap fp0.labels
        templateAnnotations := canonicalizeMap fp0.templateAnnotations
        containers := (sortBy containerLess fp0.containers).map sortContainerInner } }

/-- hash.go hashJSON: json.Marshal then SHA-256, hex-encoded.
(json.Marshal cannot fail on these struct shapes, so the error return of
the Go function is not represented.) -/
def hashJSON (s : String) : String :=
  sha256Hex (strBytes s)

def serializeDeployment (d : DeploymentSpec) : String :=
  serializeDeploymentFingerprint (deploymentCanonicalFingerprint d)

/-- hash.go HashDeployment. -/
def HashDeployment (d : DeploymentSpec) : String :=
  hashJSON (serializeDeployment d)

/-- The fingerprint construction and canonicalisation of HashService:
project each port (targetPort via IntOrString.String()), trim selector
values, sort ports by (port, name). -/
def fingerprintServicePort (p : ServicePort) : ServicePortFingerprint :=
  { name := p.name
    protocol := p.protocol
    port := p.port
    targetPort := p.targetPort.goString
    nodePort := p.nodePort }

def serviceCanonicalFingerprint (s : ServiceSpec) : ServiceFingerprint :=
  { type := s.type
    selector := canonicalizeMap s.selector
    ports := sortBy servicePortLess (s.ports.map fingerprintServicePort) }

def serializeService (s : ServiceSpec) : String :=
  serializeServiceFingerprint (serviceCanonicalFingerprint s)

/-- hash.go HashService. -/
def HashService (s : ServiceSpec) : String :=
  hashJSON (serializeService s)

/-! ## Reconciler (deployment_controller.go / service controller)

The two Reconcile methods are textually identical up to the resource kind,
its hash function, and the word in the event message; `reconcileLoaded` is
that shared body, parameterised accordingly.  Kubernetes metadata that the
code reads (labels) or reads/patches (annotations) is carried on a
`Resource`; the kind-specific spec is the type parameter.  `time.Now()` is
the `now` argument, and emitted Recorder events are returned. -/

/-- constants.go. -/
def LabelEnabled : String := "tfdrift.jin.dev/enabled"

def AnnExpectedHash : String := "tfdrift.jin.dev/spec-hash"

def AnnLiveHash : String := "tfdrift.jin.dev/live-hash"

def AnnDrifted : String := "tfdrift.jin.dev/drifted"

def AnnLastCheckedAt : String := "tfdrift.jin.dev/last-checked-at"

def AnnDriftedAt : String := "tfdrift.jin.dev/drifted-at"

/-- A watched resource: its labels, annotations and kind-specific spec. -/
structure Resource (σ : Type) where
  labels : List (String × String)
  annotations : List (String × String)
  spec : σ
deriving DecidableEq

/-- Lookup in a string map (first matching key; Go maps have unique keys). -/
def annLookup : List (String × String) → String → Option String
  | [], _ => none
  | kv :: rest, k => if kv.1 = k then some kv.2 else annLookup rest k

/-- Map update `m[k] = v` (replaces the existing entry, else appends). -/
def setAnn : List (String × String) → String → String → List (String × String)
  | [], k, v => [(k, v)]
  | kv :: rest, k, v => if kv.1 = k then (k, v) :: rest else kv :: setAnn rest k v

/-- patchAnnotations: set every key/value of the patch map on the
resource's annotations (a merge patch touching only those keys). -/
def applyPatch (m : List (String × String)) (kv : List (String × String)) :
    List (String × String) :=
  kv.foldl (fun acc p => setAnn acc p.1 p.2) m

/-- The resource with its annotation map replaced (what patchAnnotations
persists). -/
def withAnns {σ : Type} (r : Resource σ) (a : List (String × String)) : Resource σ :=
  { r with annotations := a }

/-- A Recorder event: Eventf(obj, corev1.EventTypeWarning,
"TerraformDriftDetected", "<Kind> drift detected: expectedHash=%s liveHash=%s"). -/
structure Event where
  etype : String
  reason : String
  message : String
deriving DecidableEq

/-- The shared body of DeploymentReconciler.Reconcile and
ServiceReconciler.Reconcile after a successful Get, returning the patched
resource and the events emitted. -/
def reconcileLoaded (hash : σ → String) (kindName now : String) (r : Resource σ) :
    Resource σ × List Event :=
  if annLookup r.labels LabelEnabled ≠ some "true" then
    (r, [])
  else
    let expected := (annLookup r.annotations AnnExpectedHash).getD ""
    if expected = "" then
      ({ r with annotations := applyPatch r.annotations [(AnnLastCheckedAt, now)] }, [])
    else
      let liveHash := hash r.spec
      let patchBase := [(AnnLiveHash, liveHash), (AnnLastCheckedAt, now)]
      if liveHash ≠ expected then
        let patch1 := patchBase ++ [(AnnDrifted, "true")]
        let patch2 :=
          if (annLookup r.annotations AnnDriftedAt).getD "" = "" then
            patch1 ++ [(AnnDriftedAt, now)]
          else patch1
        ({ r with annotations := applyPatch r.annotations patch2 },
         [{ etype := "Warning", reason := "TerraformDriftDetected",
            message := kindName ++ " drift detected: expectedHash=" ++ expected ++
                       " liveHash=" ++ liveHash }])
      else
        ({ r with annotations := applyPatch r.annotations (patchBase ++ [(AnnDrifted, "false")]) },
         [])

/-- Outcome of the client Get at the top of Reconcile. -/
inductive GetResult (σ : Type) where
  | found (r : Resource σ)
  | notFound
  | getError

/-- A full Reconcile invocation: the persisted resource (none when nothing
was fetched), the events emitted, and whether the call returned without
error (`ctrl.Result{}, nil`). -/
def reconcile (hash : σ → String) (kindName now : String) :
    GetResult σ → Option (Resource σ) × List Event × Bool
  | .notFound => (none, [], true)
  | .getError => (none, [], false)
  | .found r =>
    let out := reconcileLoaded hash kindName now r
    (some out.1, out.2, true)

/-- DeploymentReconciler.Reconcile. -/
def reconcileDeployment (now : String) (g : GetResult DeploymentSpec) :
    Option (Resource DeploymentSpec) × List Event × Bool :=
  reconcile HashDeployment "Deployment" now g

/-- ServiceReconciler.Reconcile. -/
def reconcileService (now : String) (g : GetResult ServiceSpec) :
    Option (Resource ServiceSpec) × List Event × Bool :=
  reconcile HashService "Service" now g


/-! ## Concrete inputs used by witnesses and counterexamples -/

/-- A minimal deployment spec: replicas unset, zero-valued strategy, empty
pod template. -/
def emptyDeployment : DeploymentSpec :=
  { replicas := none
    strategy := { type := "", rollingUpdate := none }
    template := { labels := [], templateAnnotations := [], containers := [] } }

def noResources : ResourceRequirements := { limits := [], requests := [] }

/-- One-container deployment builder used by the examples below. -/
def oneContainerDeployment (e : List EnvVar) (ps : List ContainerPort) : DeploymentSpec :=
  { replicas := none
    strategy := { type := "", rollingUpdate := none }
    template :=
      { labels := []
        templateAnnotations := []
        containers :=
          [{ name := "c", image := "img", env := e, ports := ps, resources := noResources }] } }

/-- Two container ports that tie on the sort key (containerPort, name) and
differ only in protocol: a legal Kubernetes configuration (the same port
open for TCP and for UDP). -/
def portTCP : ContainerPort := { name := "", containerPort := 80, protocol := "TCP" }

def portUDP : ContainerPort := { name := "", containerPort := 80, protocol := "UDP" }

def depPortsTU : DeploymentSpec := oneContainerDeployment [] [portTCP, portUDP]

def depPortsUT : DeploymentSpec := oneContainerDeployment [] [portUDP, portTCP]

/-- An env var whose value comes indirectly (ValueFrom), under two
different references, and the same workload without the entry. -/
def depEnvIndirect : DeploymentSpec :=
  oneContainerDeployment [{ name := "A", value := "", valueFrom := some "secret-one" }] []

def depEnvIndirect2 : DeploymentSpec :=
  oneContainerDeployment [{ name := "A", value := "", valueFrom := some "secret-two" }] []

def depNoEnv : DeploymentSpec := oneContainerDeployment [] []

/-- An env var with a literal empty-string value. -/
def depEnvEmptyLiteral : DeploymentSpec :=
  oneContainerDeployment [{ name := "A", value := "", valueFrom := none }] []

/-- A deployment whose pod template carries a label with empty-string value. -/
def depLabelEmpty : DeploymentSpec :=
  { replicas := none
    strategy := { type := "", rollingUpdate := none }
    template := { labels := [("k", "")], templateAnnotations := [], containers := [] } }

/-- HashDeployment emptyDeployment (enables the drift-resolution step in the
reconciliation scenarios below). -/
def emptyDeploymentHash : String :=
  "a08f172ea63d2a8d5c3a5e3434d52493071149eefd207c90f0cd916d1e3cd5bb"

/-- A resource not opted in (label present but not "true"), with a baseline. -/
def resOptOut : Resource DeploymentSpec :=
  { labels := [(LabelEnabled, "false")]
    annotations := [(AnnExpectedHash, "aaa")]
    spec := emptyDeployment }

/-- An opted-in resource with no baseline annotation. -/
def resNoBaseline : Resource DeploymentSpec :=
  { labels := [(LabelEnabled, "true")], annotations := [], spec := emptyDeployment }

/-- An opted-in resource whose baseline annotation is present but empty. -/
def resEmptyBaseline : Resource DeploymentSpec :=
  { labels := [(LabelEnabled, "true")]
    annotations := [(AnnExpectedHash, "")]
    spec := emptyDeployment }

/-- An opted-in resource already recorded as drifted (drifted-at set). -/
def resDrifted : Resource DeploymentSpec :=
  { labels := [(LabelEnabled, "true")]
    annotations := [(AnnExpectedHash, "aaa"), (AnnDrifted, "true"), (AnnDriftedAt, "t0")]
    spec := emptyDeployment }

/-- An opted-in resource whose baseline differs from its live hash. -/
def resDriftStart : Resource DeploymentSpec :=
  { labels := [(LabelEnabled, "true")]
    annotations := [(AnnExpectedHash, "zz")]
    spec := emptyDeployment }

/-- Drift episode scenario: detect at t1, baseline fixed externally, resolve
at t2, baseline changed back (drift recurs), detect again at t3. -/
def c2phase1 : Resource DeploymentSpec :=
  (reconcileLoaded HashDeployment "Deployment" "t1" resDriftStart).1

def c2phase2 : Resource DeploymentSpec :=
  { c2phase1 with
    annotations := setAnn c2phase1.annotations AnnExpectedHash emptyDeploymentHash }

def c2phase3 : Resource DeploymentSpec :=
  (reconcileLoaded HashDeployment "Deployment" "t2" c2phase2).1

def c2phase4 : Resource DeploymentSpec :=
  { c2phase3 with annotations := setAnn c2phase3.annotations AnnExpectedHash "zz" }

def c2phase5 : Resource DeploymentSpec :=
  (reconcileLoaded HashDeployment "Deployment" "t3" c2phase4).1

/-! ## Notions used to state the determinism and sensitivity claims -/

/-- A generic (Int-key, String-tiebreak) lexicographic strict comparison;
all four sort closures of hash.go are instances of this shape. -/
def lexLess {α : Type} (k1 : α → Int) (k2 : α → String) (a b : α) : Bool :=
  if k1 a = k1 b then goStringLess (k2 a) (k2 b) else k1 a < k1 b

/-- The deployment spec with every env var's indirect source erased: the
part of the spec that fingerprintPodTemplate deliberately ignores. -/
def stripValueFrom (d : DeploymentSpec) : DeploymentSpec :=
  { d with template :=
    { d.template with containers := d.template.containers.map (fun c =>
        { c with env := c.env.map (fun e => { e with valueFrom := none }) }) } }

/-- Two containers equal except for the input order of their env and port
lists. -/
def ContainerEquiv (c1 c2 : Container) : Prop :=
  c1.name = c2.name ∧ c1.image = c2.image ∧ c1.resources = c2.resources ∧
  c1.env.Perm c2.env ∧ c1.ports.Perm c2.ports

/-- Two deployment specs equal except that containers, env vars and ports
are presented in arbitrarily permuted input orders. -/
def SpecEquiv (d1 d2 : DeploymentSpec) : Prop :=
  d1.replicas = d2.replicas ∧ d1.strategy = d2.strategy ∧
  d1.template.labels = d2.template.labels ∧
  d1.template.templateAnnotations = d2.template.templateAnnotations ∧
  ∃ l, List.Forall₂ ContainerEquiv d1.template.containers l ∧
    l.Perm d2.template.containers

/-- The env sort keys (names) of a container are pairwise distinct. -/
@[reducible] def envKeysNodup (c : Container) : Prop :=
  (c.env.map EnvVar.name).Nodup

/-- The port sort keys (containerPort, name) of a container are pairwise
distinct (protocol is NOT part of the key). -/
@[reducible] def portKeysNodup (c : Container) : Prop :=
  (c.ports.map (fun p => (p.containerPort, p.name))).Nodup

/-- All sort keys used by HashDeployment are pairwise distinct. -/
@[reducible] def deploymentKeysNodup (d : DeploymentSpec) : Prop :=
  (d.template.containers.map Container.name).Nodup ∧
  ∀ c ∈ d.template.containers, envKeysNodup c ∧ portKeysNodup c

/-- The port sort keys (port, name) of a service are pairwise distinct. -/
@[reducible] def serviceKeysNodup (s : ServiceSpec) : Prop :=
  (s.ports.map (fun p => (p.port, p.name))).Nodup

/-- Permuted-input witness data: the same two containers (with distinct
names, env names, and port keys) presented in different orders, with their
inner lists also permuted. -/
def wContainerA : Container :=
  { name := "a", image := "i1"
    env := [{ name := "X", value := "1", valueFrom := none },
            { name := "Y", value := "2", valueFrom := none }]
    ports := [{ name := "p1", containerPort := 80, protocol := "TCP" },
              { name := "p2", containerPort := 443, protocol := "TCP" }]
    resources := noResources }

def wContainerA2 : Container :=
  { wContainerA with
    env := [{ name := "Y", value := "2", valueFrom := none },
            { name := "X", value := "1", valueFrom := none }]
    ports := [{ name := "p2", containerPort := 443, protocol := "TCP" },
              { name := "p1", containerPort := 80, protocol := "TCP" }] }

def wContainerB : Container :=
  { name := "b", image := "i2", env := [], ports := [], resources := noResources }

def mkDeployment (cs : List Container) : DeploymentSpec :=
  { replicas := none
    strategy := { type := "", rollingUpdate := none }
    template := { labels := [], templateAnnotations := [], containers := cs } }

def depPermuted1 : DeploymentSpec := mkDeployment [wContainerA, wContainerB]

def depPermuted2 : DeploymentSpec := mkDeployment [wContainerB, wContainerA2]

def svcPortH : ServicePort :=
  { name := "http", protocol := "TCP", port := 80, targetPort := .int 8080, nodePort := 0 }

def svcPortS : ServicePort :=
  { name := "https", protocol := "TCP", port := 443, targetPort := .int 8443, nodePort := 0 }

def svcPermuted1 : ServiceSpec :=
  { type := "ClusterIP", selector := [("app", "web")], ports := [svcPortH, svcPortS] }

def svcPermuted2 : ServiceSpec :=
  { type := "ClusterIP", selector := [("app", "web")], ports := [svcPortS, svcPortH] }

/-! ## Support lemmas on annotation maps -/

theorem annLookup_setAnn (l : List (String × String)) (k v k' : String) :
    annLookup (setAnn l k v) k' = if k' = k then some v else annLookup l k' := by
  induction l with
  | nil =>
    by_cases h : k' = k
    · subst h; simp [setAnn, annLookup]
    · have h2 : k ≠ k' := Ne.symm h
      simp [setAnn, annLookup, h, h2]
  | cons kv rest ih =>
    obtain ⟨a, b⟩ := kv
    by_cases h1 : a = k
    · subst h1
      by_cases h2 : k' = a
      · subst h2; simp [setAnn, annLookup]
      · have h3 : a ≠ k' := Ne.symm h2
        simp [setAnn, annLookup, h2, h3]
    · by_cases h2 : k' = k
      · subst h2
        simp [setAnn, annLookup, h1, ih]
      · have h3 : k ≠ k' := Ne.symm h2
        by_cases h4 : a = k' <;> simp [setAnn, annLookup, h1, h2, h3, h4, ih]

theorem setAnn_lookup_self (l : List (String × String)) (k v : String)
    (h : annLookup l k = some v) : setAnn l k v = l := by
  induction l with
  | nil => simp [annLookup] at h
  | cons kv rest ih =>
    obtain ⟨a, b⟩ := kv
    by_cases h1 : a = k
    · subst h1
      simp [annLookup] at h
      simp [setAnn, h]
    · simp [annLookup, h1] at h
      simp [setAnn, h1, ih h]

theorem applyPatch_cons (m : List (String × String)) (p : String × String)
    (kv : List (String × String)) :
    applyPatch m (p :: kv) = applyPatch (setAnn m p.1 p.2) kv := rfl

theorem applyPatch_self (m : List (String × String)) (kv : List (String × String))
    (h : ∀ p ∈ kv, annLookup m p.1 = some p.2) : applyPatch m kv = m := by
  induction kv with
  | nil => rfl
  | cons p rest ih =>
    rw [applyPatch_cons, setAnn_lookup_self m p.1 p.2 (h p (List.mem_cons_self _ _))]
    exact ih (fun q hq => h q (List.mem_cons_of_mem _ hq))

theorem annLookup_applyPatch_notkey (m : List (String × String))
    (kv : List (String × String)) (k : String) (h : ∀ p ∈ kv, p.1 ≠ k) :
    annLookup (applyPatch m kv) k = annLookup m k := by
  induction kv generalizing m with
  | nil => rfl
  | cons p rest ih =>
    rw [applyPatch_cons,
        ih (setAnn m p.1 p.2) (fun q hq => h q (List.mem_cons_of_mem _ hq)),
        annLookup_setAnn]
    exact if_neg (fun he => h p (List.mem_cons_self _ _) he.symm)

/-! ## Reconciler path lemmas -/

theorem withAnns_labels {σ : Type} (r : Resource σ) (a : List (String × String)) :
    (withAnns r a).labels = r.labels := rfl

theorem withAnns_annotations {σ : Type} (r : Resource σ) (a : List (String × String)) :
    (withAnns r a).annotations = a := rfl

theorem withAnns_spec {σ : Type} (r : Resource σ) (a : List (String × String)) :
    (withAnns r a).spec = r.spec := rfl

theorem withAnns_withAnns {σ : Type} (r : Resource σ) (a b : List (String × String)) :
    withAnns (withAnns r a) b = withAnns r b := rfl

theorem reconcileLoaded_optOut {σ : Type} (hash : σ → String) (kindName now : String)
    (r : Resource σ) (h : annLookup r.labels LabelEnabled ≠ some "true") :
    reconcileLoaded hash kindName now r = (r, []) := by
  simp [reconcileLoaded, h]

theorem reconcileLoaded_noBaseline {σ : Type} (hash : σ → String) (kindName now : String)
    (r : Resource σ) (hen : annLookup r.labels LabelEnabled = some "true")
    (hexp : (annLookup r.annotations AnnExpectedHash).getD "" = "") :
    reconcileLoaded hash kindName now r =
      (withAnns r (setAnn r.annotations AnnLastCheckedAt now), []) := by
  simp [reconcileLoaded, withAnns, hen, hexp, applyPatch]

/-- C9: a reconciliation request whose resource fetch reports not-found
returns success with no error, performs no write, emits no notification and
computes no hash (the outcome is the same for every hash function). -/
theorem notFound_noop_success (σ : Type) (hash : σ → String) (kindName now : String) :
    reconcile hash kindName now (GetResult.notFound (σ := σ)) = (none, [], true) := rfl

/-- C6: a resource whose opt-in label is absent or not exactly "true" is
returned unchanged — no annotation write, no hash invocation (the outcome is
the same for every hash function), no event, success — regardless of its
annotations (in particular of any baseline). -/
theorem optOut_short_circuit (σ : Type) (hash : σ → String) (kindName now : String)
    (r : Resource σ) (h : annLookup r.labels LabelEnabled ≠ some "true") :
    reconcile hash kindName now (.found r) = (some r, [], true) := by
  simp [reconcile, reconcileLoaded_optOut hash kindName now r h]

/-- C6 witness: the opt-out label value "false" short-circuits even with a
baseline annotation present. -/
theorem optOut_short_circuit_witness :
    annLookup resOptOut.labels LabelEnabled ≠ some "true" ∧
    annLookup resOptOut.annotations AnnExpectedHash = some "aaa" ∧
    reconcile HashDeployment "Deployment" "now" (.found resOptOut) =
      (some resOptOut, [], true) :=
  ⟨by decide, by decide,
   optOut_short_circuit DeploymentSpec HashDeployment "Deployment" "now" resOptOut
     (by decide)⟩

/-- C7: an opted-in resource with no baseline gets exactly one annotation
write (last-checked-at), the drifted / live-hash / drifted-at annotations
are untouched, no hash is computed (same outcome for every hash function),
and no event is emitted. -/
theorem noBaseline_writes_only_lastchecked (σ : Type) (hash : σ → String)
    (kindName now : String) (r : Resource σ)
    (hen : annLookup r.labels LabelEnabled = some "true")
    (hexp : annLookup r.annotations AnnExpectedHash = none) :
    reconcile hash kindName now (.found r) =
      (some { r with annotations := setAnn r.annotations AnnLastCheckedAt now }, [], true) ∧
    annLookup (setAnn r.annotations AnnLastCheckedAt now) AnnDrifted =
      annLookup r.annotations AnnDrifted ∧
    annLookup (setAnn r.annotations AnnLastCheckedAt now) AnnLiveHash =
      annLookup r.annotations AnnLiveHash ∧
    annLookup (setAnn r.annotations AnnLastCheckedAt now) AnnDriftedAt =
      annLookup r.annotations AnnDriftedAt := by
  refine ⟨?_, ?_, ?_, ?_⟩
  · simp [reconcile, reconcileLoaded_noBaseline hash kindName now r hen (by simp [hexp]),
          withAnns]
  all_goals
    rw [annLookup_setAnn]
    exact if_neg (by simp [AnnDrifted, AnnLiveHash, AnnDriftedAt, AnnLastCheckedAt])

/-- C7 witness. -/
theorem noBaseline_writes_only_lastchecked_witness :
    annLookup resNoBaseline.labels LabelEnabled = some "true" ∧
    annLookup resNoBaseline.annotations AnnExpectedHash = none ∧
    (reconcile HashDeployment "Deployment" "now" (.found resNoBaseline) =
      (some { resNoBaseline with
              annotations := setAnn resNoBaseline.annotations AnnLastCheckedAt "now" },
       [], true) ∧
     annLookup (setAnn resNoBaseline.annotations AnnLastCheckedAt "now") AnnDrifted =
       annLookup resNoBaseline.annotations AnnDrifted ∧
     annLookup (setAnn resNoBaseline.annotations AnnLastCheckedAt "now") AnnLiveHash =
       annLookup resNoBaseline.annotations AnnLiveHash ∧
     annLookup (setAnn resNoBaseline.annotations AnnLastCheckedAt "now") AnnDriftedAt =
       annLookup resNoBaseline.annotations AnnDriftedAt) :=
  ⟨by decide, by decide,
   noBaseline_writes_only_lastchecked DeploymentSpec HashDeployment "Deployment" "now"
     resNoBaseline (by decide) (by decide)⟩

/-- C10: a baseline annotation that is present but equal to the empty string
is handled exactly like an absent baseline: only last-checked-at is written,
no hash is computed (same outcome for every hash function), no event, and
the drifted / live-hash / drifted-at annotations are untouched. -/
theorem emptyBaseline_same_as_absent (σ : Type) (hash : σ → String)
    (kindName now : String) (r : Resource σ)
    (hen : annLookup r.labels LabelEnabled = some "true")
    (hexp : annLookup r.annotations AnnExpectedHash = some "") :
    reconcile hash kindName now (.found r) =
      (some { r with annotations := setAnn r.annotations AnnLastCheckedAt now }, [], true) ∧
    annLookup (setAnn r.annotations AnnLastCheckedAt now) AnnDrifted =
      annLookup r.annotations AnnDrifted ∧
    annLookup (setAnn r.annotations AnnLastCheckedAt now) AnnLiveHash =
      annLookup r.annotations AnnLiveHash ∧
    annLookup (setAnn r.annotations AnnLastCheckedAt now) AnnDriftedAt =
      annLookup r.annotations AnnDriftedAt := by
  refine ⟨?_, ?_, ?_, ?_⟩
  · simp [reconcile, reconcileLoaded_noBaseline hash kindName now r hen (by simp [hexp]),
          withAnns]
  all_goals
    rw [annLookup_setAnn]
    exact if_neg (by simp [AnnDrifted, AnnLiveHash, AnnDriftedAt, AnnLastCheckedAt])

/-- C10 witness. -/
theorem emptyBaseline_same_as_absent_witness :
    annLookup resEmptyBaseline.labels LabelEnabled = some "true" ∧
    annLookup resEmptyBaseline.annotations AnnExpectedHash = some "" ∧
    (reconcile HashDeployment "Deployment" "now" (.found resEmptyBaseline) =
      (some { resEmptyBaseline with
              annotations := setAnn resEmptyBaseline.annotations AnnLastCheckedAt "now" },
       [], true) ∧
     annLookup (setAnn resEmptyBaseline.annotations AnnLastCheckedAt "now") AnnDrifted =
       annLookup resEmptyBaseline.annotations AnnDrifted ∧
     annLookup (setAnn resEmptyBaseline.annotations AnnLastCheckedAt "now") AnnLiveHash =
       annLookup resEmptyBaseline.annotations AnnLiveHash ∧
     annLookup (setAnn resEmptyBaseline.annotations AnnLastCheckedAt "now") AnnDriftedAt =
       annLookup resEmptyBaseline.annotations AnnDriftedAt) :=
  ⟨by decide, by decide,
   emptyBaseline_same_as_absent DeploymentSpec HashDeployment "Deployment" "now"
     resEmptyBaseline (by decide) (by decide)⟩

theorem reconcileLoaded_clean {σ : Type} (hash : σ → String) (kindName now : String)
    (r : Resource σ) (hen : annLookup r.labels LabelEnabled = some "true")
    (hexp : (annLookup r.annotations AnnExpectedHash).getD "" ≠ "")
    (heq : hash r.spec = (annLookup r.annotations AnnExpectedHash).getD "") :
    reconcileLoaded hash kindName now r =
      (withAnns r (applyPatch r.annotations
          [(AnnLiveHash, hash r.spec), (AnnLastCheckedAt, now), (AnnDrifted, "false")]),
       []) := by
  simp [reconcileLoaded, withAnns, hen, hexp, heq]

theorem reconcileLoaded_driftedAgain {σ : Type} (hash : σ → String) (kindName now : String)
    (r : Resource σ) (hen : annLookup r.labels LabelEnabled = some "true")
    (hexp : (annLookup r.annotations AnnExpectedHash).getD "" ≠ "")
    (hne : hash r.spec ≠ (annLookup r.annotations AnnExpectedHash).getD "")
    (hda : (annLookup r.annotations AnnDriftedAt).getD "" ≠ "") :
    reconcileLoaded hash kindName now r =
      (withAnns r (applyPatch r.annotations
          [(AnnLiveHash, hash r.spec), (AnnLastCheckedAt, now), (AnnDrifted, "true")]),
       [{ etype := "Warning", reason := "TerraformDriftDetected",
          message := kindName ++ " drift detected: expectedHash=" ++
            (annLookup r.annotations AnnExpectedHash).getD "" ++
            " liveHash=" ++ hash r.spec }]) := by
  simp [reconcileLoaded, withAnns, hen, hexp, hne, hda]

theorem reconcileLoaded_driftedFirst {σ : Type} (hash : σ → String) (kindName now : String)
    (r : Resource σ) (hen : annLookup r.labels LabelEnabled = some "true")
    (hexp : (annLookup r.annotations AnnExpectedHash).getD "" ≠ "")
    (hne : hash r.spec ≠ (annLookup r.annotations AnnExpectedHash).getD "")
    (hda : (annLookup r.annotations AnnDriftedAt).getD "" = "") :
    reconcileLoaded hash kindName now r =
      (withAnns r (applyPatch r.annotations
          [(AnnLiveHash, hash r.spec), (AnnLastCheckedAt, now), (AnnDrifted, "true"),
           (AnnDriftedAt, now)]),
       [{ etype := "Warning", reason := "TerraformDriftDetected",
          message := kindName ++ " drift detected: expectedHash=" ++
            (annLookup r.annotations AnnExpectedHash).getD "" ++
            " liveHash=" ++ hash r.spec }]) := by
  simp [reconcileLoaded, withAnns, hen, hexp, hne, hda]

/-- C1 (amended): reconciling twice with the same observed clock value and
no external change produces identical persisted annotation state AND the
second invocation returns exactly the same result as the first — in
particular it re-emits the same warning event whenever drift is (still)
observed: the code does not suppress the notification on an
already-recorded drift. -/
theorem reconcile_idempotent_state (σ : Type) (hash : σ → String) (kindName now : String)
    (r : Resource σ) :
    reconcileLoaded hash kindName now (reconcileLoaded hash kindName now r).1 =
      reconcileLoaded hash kindName now r := by
  by_cases h1 : annLookup r.labels LabelEnabled = some "true"
  · by_cases h2 : (annLookup r.annotations AnnExpectedHash).getD "" = ""
    · rw [reconcileLoaded_noBaseline hash kindName now r h1 h2]
      dsimp only
      rw [reconcileLoaded_noBaseline hash kindName now
          (withAnns r (setAnn r.annotations AnnLastCheckedAt now))
          (by rw [withAnns_labels]; exact h1)
          (by rw [withAnns_annotations, annLookup_setAnn,
                  if_neg (by simp [AnnExpectedHash, AnnLastCheckedAt])]
              exact h2)]
      have habs : setAnn (setAnn r.annotations AnnLastCheckedAt now) AnnLastCheckedAt now =
          setAnn r.annotations AnnLastCheckedAt now :=
        setAnn_lookup_self _ _ _ (by rw [annLookup_setAnn]; simp)
      rw [withAnns_annotations, withAnns_withAnns, habs]
    · by_cases h3 : hash r.spec = (annLookup r.annotations AnnExpectedHash).getD ""
      · -- clean path
        rw [reconcileLoaded_clean hash kindName now r h1 h2 h3]
        dsimp only
        have hEH : annLookup (applyPatch r.annotations
            [(AnnLiveHash, hash r.spec), (AnnLastCheckedAt, now), (AnnDrifted, "false")])
            AnnExpectedHash = annLookup r.annotations AnnExpectedHash :=
          annLookup_applyPatch_notkey _ _ _
            (by simp [AnnLiveHash, AnnLastCheckedAt, AnnDrifted, AnnExpectedHash])
        rw [reconcileLoaded_clean hash kindName now
            (withAnns r (applyPatch r.annotations
              [(AnnLiveHash, hash r.spec), (AnnLastCheckedAt, now), (AnnDrifted, "false")]))
            (by rw [withAnns_labels]; exact h1)
            (by rw [withAnns_annotations, hEH]; exact h2)
            (by rw [withAnns_spec, withAnns_annotations, hEH]; exact h3)]
        have hP : applyPatch (applyPatch r.annotations
            [(AnnLiveHash, hash r.spec), (AnnLastCheckedAt, now), (AnnDrifted, "false")])
            [(AnnLiveHash, hash r.spec), (AnnLastCheckedAt, now), (AnnDrifted, "false")] =
            applyPatch r.annotations
            [(AnnLiveHash, hash r.spec), (AnnLastCheckedAt, now), (AnnDrifted, "false")] :=
          applyPatch_self _ _ (by
            simp [applyPatch, annLookup_setAnn,
                  AnnLiveHash, AnnLastCheckedAt, AnnDrifted])
        rw [withAnns_spec, withAnns_annotations, withAnns_withAnns, hP]
      · by_cases h4 : (annLookup r.annotations AnnDriftedAt).getD "" = ""
        · -- drifted, first detection of this episode
          rw [reconcileLoaded_driftedFirst hash kindName now r h1 h2 h3 h4]
          dsimp only
          have hEH : annLookup (applyPatch r.annotations
              [(AnnLiveHash, hash r.spec), (AnnLastCheckedAt, now), (AnnDrifted, "true"),
               (AnnDriftedAt, now)]) AnnExpectedHash =
              annLookup r.annotations AnnExpectedHash :=
            annLookup_applyPatch_notkey _ _ _
              (by simp [AnnLiveHash, AnnLastCheckedAt, AnnDrifted, AnnDriftedAt,
                        AnnExpectedHash])
          have hDA : annLookup (applyPatch r.annotations
              [(AnnLiveHash, hash r.spec), (AnnLastCheckedAt, now), (AnnDrifted, "true"),
               (AnnDriftedAt, now)]) AnnDriftedAt = some now := by
            simp [applyPatch, annLookup_setAnn, AnnLiveHash, AnnLastCheckedAt, AnnDrifted,
                  AnnDriftedAt]
          by_cases hnow : now = ""
          · rw [reconcileLoaded_driftedFirst hash kindName now
                (withAnns r (applyPatch r.annotations
                  [(AnnLiveHash, hash r.spec), (AnnLastCheckedAt, now), (AnnDrifted, "true"),
                   (AnnDriftedAt, now)]))
                (by rw [withAnns_labels]; exact h1)
                (by rw [withAnns_annotations, hEH]; exact h2)
                (by rw [withAnns_spec, withAnns_annotations, hEH]; exact h3)
                (by rw [withAnns_annotations, hDA]; simpa using hnow)]
            have hP : applyPatch (applyPatch r.annotations
                [(AnnLiveHash, hash r.spec), (AnnLastCheckedAt, now), (AnnDrifted, "true"),
                 (AnnDriftedAt, now)])
                [(AnnLiveHash, hash r.spec), (AnnLastCheckedAt, now), (AnnDrifted, "true"),
                 (AnnDriftedAt, now)] =
                applyPatch r.annotations
                [(AnnLiveHash, hash r.spec), (AnnLastCheckedAt, now), (AnnDrifted, "true"),
                 (AnnDriftedAt, now)] :=
              applyPatch_self _ _ (by
                simp [applyPatch, annLookup_setAnn,
                      AnnLiveHash, AnnLastCheckedAt, AnnDrifted, AnnDriftedAt])
            rw [withAnns_spec, withAnns_annotations, withAnns_withAnns, hP, hEH]
          · rw [reconcileLoaded_driftedAgain hash kindName now
                (withAnns r (applyPatch r.annotations
                  [(AnnLiveHash, hash r.spec), (AnnLastCheckedAt, now), (AnnDrifted, "true"),
                   (AnnDriftedAt, now)]))
                (by rw [withAnns_labels]; exact h1)
                (by rw [withAnns_annotations, hEH]; exact h2)
                (by rw [withAnns_spec, withAnns_annotations, hEH]; exact h3)
                (by rw [withAnns_annotations, hDA]; simpa using hnow)]
            have hP : applyPatch (applyPatch r.annotations
                [(AnnLiveHash, hash r.spec), (AnnLastCheckedAt, now), (AnnDrifted, "true"),
                 (AnnDriftedAt, now)])
                [(AnnLiveHash, hash r.spec), (AnnLastCheckedAt, now), (AnnDrifted, "true")] =
                applyPatch r.annotations
                [(AnnLiveHash, hash r.spec), (AnnLastCheckedAt, now), (AnnDrifted, "true"),
                 (AnnDriftedAt, now)] :=
              applyPatch_self _ _ (by
                simp [applyPatch, annLookup_setAnn,
                      AnnLiveHash, AnnLastCheckedAt, AnnDrifted, AnnDriftedAt])
            rw [withAnns_spec, withAnns_annotations, withAnns_withAnns, hP, hEH]
        · -- drifted, drifted-at already recorded
          rw [reconcileLoaded_driftedAgain hash kindName now r h1 h2 h3 h4]
          dsimp only
          have hEH : annLookup (applyPatch r.annotations
              [(AnnLiveHash, hash r.spec), (AnnLastCheckedAt, now), (AnnDrifted, "true")])
              AnnExpectedHash = annLookup r.annotations AnnExpectedHash :=
            annLookup_applyPatch_notkey _ _ _
              (by simp [AnnLiveHash, AnnLastCheckedAt, AnnDrifted, AnnExpectedHash])
          have hDA : annLookup (applyPatch r.annotations
              [(AnnLiveHash, hash r.spec), (AnnLastCheckedAt, now), (AnnDrifted, "true")])
              AnnDriftedAt = annLookup r.annotations AnnDriftedAt :=
            annLookup_applyPatch_notkey _ _ _
              (by simp [AnnLiveHash, AnnLastCheckedAt, AnnDrifted, AnnDriftedAt])
          rw [reconcileLoaded_driftedAgain hash kindName now
              (withAnns r (applyPatch r.annotations
                [(AnnLiveHash, hash r.spec), (AnnLastCheckedAt, now), (AnnDrifted, "true")]))
              (by rw [withAnns_labels]; exact h1)
              (by rw [withAnns_annotations, hEH]; exact h2)
              (by rw [withAnns_spec, withAnns_annotations, hEH]; exact h3)
              (by rw [withAnns_annotations, hDA]; exact h4)]
          have hP : applyPatch (applyPatch r.annotations
              [(AnnLiveHash, hash r.spec), (AnnLastCheckedAt, now), (AnnDrifted, "true")])
              [(AnnLiveHash, hash r.spec), (AnnLastCheckedAt, now), (AnnDrifted, "true")] =
              applyPatch r.annotations
              [(AnnLiveHash, hash r.spec), (AnnLastCheckedAt, now), (AnnDrifted, "true")] :=
            applyPatch_self _ _ (by
              simp [applyPatch, annLookup_setAnn,
                    AnnLiveHash, AnnLastCheckedAt, AnnDrifted])
          rw [withAnns_spec, withAnns_annotations, withAnns_withAnns, hP, hEH]
  · rw [reconcileLoaded_optOut hash kindName now r h1]
    exact reconcileLoaded_optOut hash kindName now r h1

/-- Sanity: the recorded hash literal of the empty deployment is the value
HashDeployment actually computes. -/
theorem emptyDeploymentHash_eq : HashDeployment emptyDeployment = emptyDeploymentHash := by
  decide

/-- Sanity: the SHA-256 implementation reproduces the FIPS 180-4 test
vector for the message "abc". -/
theorem sha256_fips_test_vector :
    sha256Hex (strBytes "abc") =
      "ba7816bf8f01cfea414140de5dae2223b00361a396177a9cb410ff61f20015ad" := by
  decide

/-- C1 counterexample: on a resource that the first reconciliation has just
recorded as drifted (drifted=true, drifted-at set), the second, unchanged
reconciliation emits a warning notification again — the claimed
"no second notification while already recorded as drifted" is false. -/
theorem second_reconcile_emits_again :
    annLookup ((reconcileLoaded HashDeployment "Deployment" "t1" resDriftStart).1).annotations
      AnnDrifted = some "true" ∧
    annLookup ((reconcileLoaded HashDeployment "Deployment" "t1" resDriftStart).1).annotations
      AnnDriftedAt = some "t1" ∧
    (reconcileLoaded HashDeployment "Deployment" "t1"
      (reconcileLoaded HashDeployment "Deployment" "t1" resDriftStart).1).2 ≠ [] := by
  refine ⟨by decide, by decide, by decide⟩

/-- C2 (amended): once the drifted-at annotation holds a non-empty value,
no reconciliation ever changes it — not while drift persists, not when
drift resolves (the clean path leaves it in place), and not when drift
later recurs (the code only writes drifted-at when the current value is
empty, and it never deletes it): the first-episode timestamp is permanent. -/
theorem driftedAt_never_overwritten (σ : Type) (hash : σ → String) (kindName now : String)
    (r : Resource σ) (t : String)
    (h : annLookup r.annotations AnnDriftedAt = some t) (ht : t ≠ "") :
    annLookup ((reconcileLoaded hash kindName now r).1).annotations AnnDriftedAt = some t := by
  by_cases h1 : annLookup r.labels LabelEnabled = some "true"
  · by_cases h2 : (annLookup r.annotations AnnExpectedHash).getD "" = ""
    · rw [reconcileLoaded_noBaseline hash kindName now r h1 h2]
      dsimp only
      rw [withAnns_annotations, annLookup_setAnn,
          if_neg (by simp [AnnDriftedAt, AnnLastCheckedAt])]
      exact h
    · by_cases h3 : hash r.spec = (annLookup r.annotations AnnExpectedHash).getD ""
      · rw [reconcileLoaded_clean hash kindName now r h1 h2 h3]
        dsimp only
        rw [withAnns_annotations, annLookup_applyPatch_notkey _ _ _
          (by simp [AnnLiveHash, AnnLastCheckedAt, AnnDrifted, AnnDriftedAt])]
        exact h
      · have h4 : (annLookup r.annotations AnnDriftedAt).getD "" ≠ "" := by
          rw [h]; simpa using ht
        rw [reconcileLoaded_driftedAgain hash kindName now r h1 h2 h3 h4]
        dsimp only
        rw [withAnns_annotations, annLookup_applyPatch_notkey _ _ _
          (by simp [AnnLiveHash, AnnLastCheckedAt, AnnDrifted, AnnDriftedAt])]
        exact h
  · rw [reconcileLoaded_optOut hash kindName now r h1]
    exact h

/-- C2 witness: an already-drifted resource keeps drifted-at = "t0" through
a further reconciliation. -/
theorem driftedAt_never_overwritten_witness :
    annLookup resDrifted.annotations AnnDriftedAt = some "t0" ∧ "t0" ≠ "" ∧
    annLookup ((reconcileLoaded HashDeployment "Deployment" "t5" resDrifted).1).annotations
      AnnDriftedAt = some "t0" :=
  ⟨by decide, by decide,
   driftedAt_never_overwritten DeploymentSpec HashDeployment "Deployment" "t5" resDrifted
     "t0" (by decide) (by decide)⟩

/-- C2 counterexample: detect drift at t1, let it resolve (a reconciliation
at t2 observes live hash = expected and writes drifted=false), make drift
recur, reconcile at t3: the new detection does NOT overwrite drifted-at —
it still holds the stale first-episode timestamp t1, not t3. -/
theorem driftedAt_stale_after_recurrence :
    annLookup c2phase1.annotations AnnDriftedAt = some "t1" ∧
    annLookup c2phase3.annotations AnnDrifted = some "false" ∧
    annLookup c2phase5.annotations AnnDrifted = some "true" ∧
    annLookup c2phase5.annotations AnnDriftedAt = some "t1" ∧
    "t1" ≠ "t3" := by
  refine ⟨by decide, by decide, by decide, by decide, by decide⟩

/-! ## Generic facts about the sort.Slice model -/

theorem insertBy_perm {α : Type} (less : α → α → Bool) (x : α) (l : List α) :
    (insertBy less x l).Perm (x :: l) := by
  induction l with
  | nil => exact List.Perm.refl _
  | cons y ys ih =>
    by_cases h : less y x = true
    · simp only [insertBy, h, if_true]
      exact (ih.cons y).trans (List.Perm.swap x y ys)
    · simp only [insertBy, h, if_false]
      exact List.Perm.refl _

theorem sortBy_perm {α : Type} (less : α → α → Bool) (l : List α) :
    (sortBy less l).Perm l := by
  induction l with
  | nil => exact List.Perm.refl _
  | cons x xs ih => exact (insertBy_perm less x (sortBy less xs)).trans (ih.cons x)

theorem insertBy_pairwise {α : Type} (less : α → α → Bool)
    (hasym : ∀ a b, less a b = true → less b a = true → False)
    (hcotrans : ∀ a b c, less a c = true → less a b = true ∨ less b c = true)
    (x : α) (l : List α) (hl : l.Pairwise (fun a b => less b a = false)) :
    (insertBy less x l).Pairwise (fun a b => less b a = false) := by
  induction l with
  | nil => simp [insertBy]
  | cons y ys ih =>
    rcases List.pairwise_cons.mp hl with ⟨hy, hys⟩
    by_cases h : less y x = true
    · simp only [insertBy, h, if_true]
      refine List.pairwise_cons.mpr ⟨?_, ih hys⟩
      intro z hz
      rcases List.mem_cons.mp ((insertBy_perm less x ys).mem_iff.mp hz) with hz1 | hz2
      · subst hz1
        cases hxy : less z y
        · rfl
        · exact absurd (hasym y z h hxy) id
      · exact hy z hz2
    · simp only [insertBy, h, if_false]
      refine List.pairwise_cons.mpr ⟨?_, hl⟩
      intro z hz
      rcases List.mem_cons.mp hz with hz1 | hz2
      · subst hz1
        exact Bool.not_eq_true _ ▸ h
      · cases hzx : less z x
        · rfl
        · rcases hcotrans z y x hzx with h1 | h2
          · rw [hy z hz2] at h1; cases h1
          · rw [Bool.not_eq_true] at h; rw [h] at h2; cases h2

theorem sortBy_pairwise {α : Type} (less : α → α → Bool)
    (hasym : ∀ a b, less a b = true → less b a = true → False)
    (hcotrans : ∀ a b c, less a c = true → less a b = true ∨ less b c = true)
    (l : List α) :
    (sortBy less l).Pairwise (fun a b => less b a = false) := by
  induction l with
  | nil => simp [sortBy]
  | cons x xs ih => exact insertBy_pairwise less hasym hcotrans x _ ih

theorem pairwise_perm_eq {α : Type} (R : α → α → Prop) :
    ∀ (l1 l2 : List α), l1.Perm l2 → l1.Pairwise R → l2.Pairwise R →
      (∀ x ∈ l1, ∀ y ∈ l1, R x y → R y x → x = y) → l1 = l2
  | [], l2, hp, _, _, _ => hp.nil_eq
  | x :: xs, [], hp, _, _, _ => absurd hp.length_eq (by simp)
  | x :: xs, y :: ys, hp, h1, h2, hanti => by
    rcases List.pairwise_cons.mp h1 with ⟨hx1, hxs⟩
    rcases List.pairwise_cons.mp h2 with ⟨hy2, hys⟩
    have hxy : x = y := by
      by_cases hc : x = y
      · exact hc
      · have hxm : x ∈ ys := by
          rcases List.mem_cons.mp (hp.mem_iff.mp (List.mem_cons_self x xs)) with h | h
          · exact absurd h hc
          · exact h
        have hym : y ∈ xs := by
          rcases List.mem_cons.mp (hp.symm.mem_iff.mp (List.mem_cons_self y ys)) with h | h
          · exact absurd h.symm hc
          · exact h
        exact hanti x (List.mem_cons_self x xs) y (List.mem_cons_of_mem x hym)
          (hx1 y hym) (hy2 x hxm)
    subst hxy
    have htail : xs = ys :=
      pairwise_perm_eq R xs ys hp.cons_inv hxs hys
        (fun a ha b hb => hanti a (List.mem_cons_of_mem x ha) b (List.mem_cons_of_mem x hb))
    rw [htail]

theorem charListLess_asym :
    ∀ l1 l2, charListLess l1 l2 = true → charListLess l2 l1 = true → False
  | [], [], h1, _ => by simp [charListLess] at h1
  | [], _ :: _, _, h2 => by simp [charListLess] at h2
  | _ :: _, [], h1, _ => by simp [charListLess] at h1
  | a :: as, b :: bs, h1, h2 => by
    simp only [charListLess] at h1 h2
    by_cases hab : a = b
    · rw [if_pos hab] at h1
      rw [if_pos hab.symm] at h2
      exact charListLess_asym as bs h1 h2
    · rw [if_neg hab] at h1
      rw [if_neg (fun hh => hab hh.symm)] at h2
      simp only [decide_eq_true_eq] at h1 h2
      exact Nat.lt_asymm h1 h2

theorem charListLess_trans :
    ∀ l1 l2 l3, charListLess l1 l2 = true → charListLess l2 l3 = true →
      charListLess l1 l3 = true
  | [], [], _, h1, _ => by simp [charListLess] at h1
  | [], _ :: _, [], _, h2 => by simp [charListLess] at h2
  | [], _ :: _, _ :: _, _, _ => by simp [charListLess]
  | _ :: _, [], _, h1, _ => by simp [charListLess] at h1
  | _ :: _, _ :: _, [], _, h2 => by simp [charListLess] at h2
  | a :: as, b :: bs, c :: cs, h1, h2 => by
    simp only [charListLess] at h1 h2 ⊢
    by_cases hab : a = b <;> by_cases hbc : b = c
    · subst hab; subst hbc
      rw [if_pos rfl] at h1 h2 ⊢
      exact charListLess_trans as bs cs h1 h2
    · subst hab
      rw [if_neg hbc] at h2 ⊢
      exact h2
    · subst hbc
      rw [if_neg hab] at h1 ⊢
      exact h1
    · rw [if_neg hab] at h1
      rw [if_neg hbc] at h2
      simp only [decide_eq_true_eq] at h1 h2
      by_cases hac : a = c
      · subst hac
        exact absurd (Nat.lt_trans h1 h2) (Nat.lt_irrefl _)
      · rw [if_neg hac]
        simp only [decide_eq_true_eq]
        exact Nat.lt_trans h1 h2

theorem charListLess_tie :
    ∀ l1 l2, charListLess l1 l2 = false → charListLess l2 l1 = false → l1 = l2
  | [], [], _, _ => rfl
  | [], _ :: _, h1, _ => by simp [charListLess] at h1
  | _ :: _, [], _, h2 => by simp [charListLess] at h2
  | a :: as, b :: bs, h1, h2 => by
    simp only [charListLess] at h1 h2
    by_cases hab : a = b
    · subst hab
      rw [if_pos rfl] at h1 h2
      rw [charListLess_tie as bs h1 h2]
    · rw [if_neg hab] at h1
      rw [if_neg (fun hh => hab hh.symm)] at h2
      simp only [decide_eq_false_iff_not, Nat.not_lt] at h1 h2
      exact absurd (Char.ext (UInt32.ext (Nat.le_antisymm h2 h1))) hab

theorem goStringLess_asym (a b : String) :
    goStringLess a b = true → goStringLess b a = true → False :=
  charListLess_asym a.data b.data

theorem goStringLess_trans (a b c : String) :
    goStringLess a b = true → goStringLess b c = true → goStringLess a c = true :=
  charListLess_trans a.data b.data c.data

theorem goStringLess_tie (a b : String) :
    goStringLess a b = false → goStringLess b a = false → a = b := by
  intro h1 h2
  cases a with
  | mk da =>
    cases b with
    | mk db =>
      rw [charListLess_tie da db h1 h2]

theorem lexLess_asym {α : Type} (k1 : α → Int) (k2 : α → String) (a b : α) :
    lexLess k1 k2 a b = true → lexLess k1 k2 b a = true → False := by
  intro hab hba
  unfold lexLess at hab hba
  by_cases h : k1 a = k1 b
  · rw [if_pos h] at hab
    rw [if_pos h.symm] at hba
    exact goStringLess_asym _ _ hab hba
  · rw [if_neg h] at hab
    rw [if_neg (fun hh => h hh.symm)] at hba
    simp only [decide_eq_true_eq] at hab hba
    exact lt_asymm hab hba

theorem lexLess_cotrans {α : Type} (k1 : α → Int) (k2 : α → String) (a b c : α) :
    lexLess k1 k2 a c = true → lexLess k1 k2 a b = true ∨ lexLess k1 k2 b c = true := by
  intro hac
  unfold lexLess at hac ⊢
  by_cases h1 : k1 a = k1 b <;> by_cases h2 : k1 b = k1 c
  · have h3 : k1 a = k1 c := h1.trans h2
    rw [if_pos h3] at hac
    rw [if_pos h1, if_pos h2]
    by_cases hb : goStringLess (k2 a) (k2 b) = true
    · exact Or.inl hb
    · right
      by_cases hba : goStringLess (k2 b) (k2 a) = true
      · exact goStringLess_trans _ _ _ hba hac
      · have heq : k2 a = k2 b :=
          goStringLess_tie _ _ (Bool.not_eq_true _ ▸ hb) (Bool.not_eq_true _ ▸ hba)
        rw [← heq]
        exact hac
  · have h3 : ¬ k1 a = k1 c := fun hh => h2 (h1.symm.trans hh)
    rw [if_neg h3] at hac
    rw [if_pos h1, if_neg h2]
    right
    simp only [decide_eq_true_eq] at hac ⊢
    exact lt_of_le_of_lt (le_of_eq h1.symm) hac
  · have h3 : ¬ k1 a = k1 c := fun hh => h1 (hh.trans h2.symm)
    rw [if_neg h3] at hac
    rw [if_neg h1, if_pos h2]
    left
    simp only [decide_eq_true_eq] at hac ⊢
    exact lt_of_lt_of_le hac (le_of_eq h2.symm)
  · rw [if_neg h1, if_neg h2]
    simp only [decide_eq_true_eq]
    by_cases h3 : k1 a = k1 c
    · rcases lt_trichotomy (k1 a) (k1 b) with h | h | h
      · exact Or.inl h
      · exact absurd h h1
      · exact Or.inr (lt_of_lt_of_le h (le_of_eq h3))
    · rw [if_neg h3] at hac
      simp only [decide_eq_true_eq] at hac
      rcases lt_trichotomy (k1 a) (k1 b) with h | h | h
      · exact Or.inl h
      · exact absurd h h1
      · exact Or.inr (lt_trans h hac)

theorem lexLess_tie {α : Type} (k1 : α → Int) (k2 : α → String) (a b : α) :
    lexLess k1 k2 a b = false → lexLess k1 k2 b a = false → k1 a = k1 b ∧ k2 a = k2 b := by
  intro hab hba
  unfold lexLess at hab hba
  by_cases h : k1 a = k1 b
  · rw [if_pos h] at hab
    rw [if_pos h.symm] at hba
    exact ⟨h, goStringLess_tie _ _ hab hba⟩
  · rw [if_neg h] at hab
    rw [if_neg (fun hh => h hh.symm)] at hba
    simp only [decide_eq_false_iff_not] at hab hba
    exact absurd (le_antisymm (not_lt.mp hba) (not_lt.mp hab)) h

/-- Sorting with any of the hash.go comparison closures (all of the lexLess
shape) gives the same result on any two permutations of a list whose sort
keys are pairwise distinct. -/
theorem sortBy_lexLess_eq_of_perm {α : Type} (k1 : α → Int) (k2 : α → String)
    (less : α → α → Bool) (hless : ∀ a b, less a b = lexLess k1 k2 a b)
    (l1 l2 : List α) (hp : l1.Perm l2)
    (hnd : (l1.map (fun x => (k1 x, k2 x))).Nodup) :
    sortBy less l1 = sortBy less l2 := by
  have hasym : ∀ a b, less a b = true → less b a = true → False := by
    intro a b hab hba
    exact lexLess_asym k1 k2 a b (hless a b ▸ hab) (hless b a ▸ hba)
  have hcotrans : ∀ a b c, less a c = true → less a b = true ∨ less b c = true := by
    intro a b c hac
    rcases lexLess_cotrans k1 k2 a b c (hless a c ▸ hac) with h | h
    · exact Or.inl ((hless a b).symm ▸ h)
    · exact Or.inr ((hless b c).symm ▸ h)
  have hinj : ∀ x ∈ l1, ∀ y ∈ l1, (k1 x, k2 x) = (k1 y, k2 y) → x = y :=
    (List.nodup_map_iff_inj_on hnd.of_map).mp hnd
  refine pairwise_perm_eq _ _ _
    ((sortBy_perm less l1).trans (hp.trans (sortBy_perm less l2).symm))
    (sortBy_pairwise less hasym hcotrans l1)
    (sortBy_pairwise less hasym hcotrans l2) ?_
  intro x hx y hy hxy hyx
  have hx1 : x ∈ l1 := (sortBy_perm less l1).mem_iff.mp hx
  have hy1 : y ∈ l1 := (sortBy_perm less l1).mem_iff.mp hy
  have := lexLess_tie k1 k2 y x (hless y x ▸ hxy) (hless x y ▸ hyx)
  exact (hinj x hx1 y hy1 (by rw [this.1, this.2])).symm ▸ rfl

theorem insertBy_map_comm {α β : Type} (less : α → α → Bool) (lessB : β → β → Bool)
    (f : α → β) (hf : ∀ a b, lessB (f a) (f b) = less a b) (x : α) (l : List α) :
    (insertBy less x l).map f = insertBy lessB (f x) (l.map f) := by
  induction l with
  | nil => rfl
  | cons y ys ih =>
    simp only [List.map_cons, insertBy, hf]
    by_cases h : less y x = true
    · rw [if_pos h, if_pos h, List.map_cons, ih]
    · rw [if_neg h, if_neg h]
      simp only [List.map_cons]

theorem sortBy_map_comm {α β : Type} (less : α → α → Bool) (lessB : β → β → Bool)
    (f : α → β) (hf : ∀ a b, lessB (f a) (f b) = less a b) (l : List α) :
    (sortBy less l).map f = sortBy lessB (l.map f) := by
  induction l with
  | nil => rfl
  | cons x xs ih =>
    simp only [sortBy, List.map_cons, insertBy_map_comm less lessB f hf, ih]

theorem nodup_zero_pair {α : Type} (f : α → String) (l : List α) (h : (l.map f).Nodup) :
    (l.map (fun x => ((0 : Int), f x))).Nodup := by
  have h2 : l.map (fun x => ((0 : Int), f x)) = (l.map f).map (fun n => ((0 : Int), n)) := by
    rw [List.map_map]; rfl
  rw [h2]
  exact h.map (fun x y hxy => by simpa using congrArg Prod.snd hxy)

theorem envLess_lex (a b : EnvVarFingerprint) :
    envLess a b = lexLess (fun _ => (0 : Int)) EnvVarFingerprint.name a b := by
  simp [envLess, lexLess]

theorem portLess_lex (a b : ContainerPortFingerprint) :
    portLess a b =
      lexLess ContainerPortFingerprint.containerPort ContainerPortFingerprint.name a b := rfl

theorem containerLess_lex (a b : ContainerFingerprint) :
    containerLess a b = lexLess (fun _ => (0 : Int)) ContainerFingerprint.name a b := by
  simp [containerLess, lexLess]

theorem servicePortLess_lex (a b : ServicePortFingerprint) :
    servicePortLess a b =
      lexLess ServicePortFingerprint.port ServicePortFingerprint.name a b := rfl

/-- Canonicalising a container fingerprint is invariant under permuting its
env and port input lists, provided the sort keys are pairwise distinct. -/
theorem sortContainerInner_fingerprint_eq (c1 c2 : Container) (he : ContainerEquiv c1 c2)
    (henv : envKeysNodup c1) (hports : portKeysNodup c1) :
    sortContainerInner (fingerprintContainer c1) =
      sortContainerInner (fingerprintContainer c2) := by
  obtain ⟨hn, hi, hr, henvp, hportp⟩ := he
  have he1 : sortBy envLess (c1.env.map fingerprintEnvVar) =
      sortBy envLess (c2.env.map fingerprintEnvVar) := by
    refine sortBy_lexLess_eq_of_perm (fun _ => (0 : Int)) EnvVarFingerprint.name envLess
      envLess_lex _ _ (henvp.map fingerprintEnvVar) ?_
    have h2 : (c1.env.map fingerprintEnvVar).map
        (fun x => ((fun _ => (0 : Int)) x, x.name)) =
        c1.env.map (fun e => ((0 : Int), e.name)) := by
      rw [List.map_map]; rfl
    rw [h2]
    exact nodup_zero_pair EnvVar.name c1.env henv
  have he2 : sortBy portLess (c1.ports.map fingerprintPort) =
      sortBy portLess (c2.ports.map fingerprintPort) := by
    refine sortBy_lexLess_eq_of_perm ContainerPortFingerprint.containerPort
      ContainerPortFingerprint.name portLess (fun a b => rfl) _ _
      (hportp.map fingerprintPort) ?_
    have h2 : (c1.ports.map fingerprintPort).map
        (fun x => (x.containerPort, x.name)) =
        c1.ports.map (fun p => (p.containerPort, p.name)) := by
      rw [List.map_map]; rfl
    rw [h2]
    exact hports
  simp [sortContainerInner, fingerprintContainer, hn, hi, hr, he1, he2]

theorem forall2_sortedFingerprint_eq :
    ∀ (l1 l2 : List Container), List.Forall₂ ContainerEquiv l1 l2 →
      (∀ c ∈ l1, envKeysNodup c ∧ portKeysNodup c) →
      l1.map (fun c => sortContainerInner (fingerprintContainer c)) =
        l2.map (fun c => sortContainerInner (fingerprintContainer c))
  | [], [], _, _ => rfl
  | _, _, List.Forall₂.cons hab htail, hnd => by
    simp only [List.map_cons]
    rw [sortContainerInner_fingerprint_eq _ _ hab
        (hnd _ (List.mem_cons_self _ _)).1 (hnd _ (List.mem_cons_self _ _)).2,
      forall2_sortedFingerprint_eq _ _ htail
        (fun c hc => hnd c (List.mem_cons_of_mem _ hc))]

/-- HashDeployment is invariant under permuting the containers, env and
port input lists, provided every sort key used is pairwise distinct. -/
theorem hashDeployment_perm_invariant (d1 d2 : DeploymentSpec) (he : SpecEquiv d1 d2)
    (hnd : deploymentKeysNodup d1) : HashDeployment d1 = HashDeployment d2 := by
  obtain ⟨hrep, hstrat, hlab, hann, l, hf2, hperm⟩ := he
  obtain ⟨hnames, hinner⟩ := hnd
  have hmapeq : d1.template.containers.map (fun c => sortContainerInner (fingerprintContainer c)) =
      l.map (fun c => sortContainerInner (fingerprintContainer c)) :=
    forall2_sortedFingerprint_eq _ _ hf2 hinner
  have hp2 : (d1.template.containers.map (fun c => sortContainerInner (fingerprintContainer c))).Perm
      (d2.template.containers.map (fun c => sortContainerInner (fingerprintContainer c))) := by
    rw [hmapeq]
    exact hperm.map _
  have hnodupF : ((d1.template.containers.map
      (fun c => sortContainerInner (fingerprintContainer c))).map
      (fun x => ((0 : Int), x.name))).Nodup := by
    have h2 : (d1.template.containers.map
        (fun c => sortContainerInner (fingerprintContainer c))).map
        (fun x => ((0 : Int), x.name)) =
        d1.template.containers.map (fun c => ((0 : Int), c.name)) := by
      rw [List.map_map]; rfl
    rw [h2]
    exact nodup_zero_pair Container.name _ hnames
  have hsorteq : sortBy containerLess
      (d1.template.containers.map (fun c => sortContainerInner (fingerprintContainer c))) =
      sortBy containerLess
      (d2.template.containers.map (fun c => sortContainerInner (fingerprintContainer c))) :=
    sortBy_lexLess_eq_of_perm (fun _ => (0 : Int)) ContainerFingerprint.name containerLess
      containerLess_lex _ _ hp2 hnodupF
  have hcontainers : (sortBy containerLess
      ((d1.template.containers.map fingerprintContainer))).map sortContainerInner =
      (sortBy containerLess
      ((d2.template.containers.map fingerprintContainer))).map sortContainerInner := by
    rw [sortBy_map_comm containerLess containerLess sortContainerInner (fun a b => rfl),
        sortBy_map_comm containerLess containerLess sortContainerInner (fun a b => rfl),
        List.map_map, List.map_map]
    exact hsorteq
  have hcanon : deploymentCanonicalFingerprint d1 = deploymentCanonicalFingerprint d2 := by
    simp only [deploymentCanonicalFingerprint, fingerprintPodTemplate]
    rw [hrep, hstrat, hlab, hann, hcontainers]
  rw [HashDeployment, HashDeployment, serializeDeployment, serializeDeployment, hcanon]

/-- HashService is invariant under permuting the service's port input list,
provided the (port, name) sort keys are pairwise distinct. -/
theorem hashService_perm_invariant (s1 s2 : ServiceSpec) (ht : s1.type = s2.type)
    (hsel : s1.selector = s2.selector) (hp : s1.ports.Perm s2.ports)
    (hnd : serviceKeysNodup s1) : HashService s1 = HashService s2 := by
  have hsort : sortBy servicePortLess (s1.ports.map fingerprintServicePort) =
      sortBy servicePortLess (s2.ports.map fingerprintServicePort) := by
    refine sortBy_lexLess_eq_of_perm ServicePortFingerprint.port ServicePortFingerprint.name
      servicePortLess (fun a b => rfl) _ _ (hp.map fingerprintServicePort) ?_
    have h2 : (s1.ports.map fingerprintServicePort).map (fun x => (x.port, x.name)) =
        s1.ports.map (fun p => (p.port, p.name)) := by
      rw [List.map_map]; rfl
    rw [h2]
    exact hnd
  simp [HashService, serializeService, serviceCanonicalFingerprint, ht, hsel, hsort]

/-- C3 (amended): fingerprint hashing is deterministic under permuted input
orders PROVIDED all sort keys are pairwise distinct — container names,
env-var names per container, (containerPort, name) per container, and for
services (port, name).  Because protocol is outside the port ordering tuple,
distinct ports that tie on (containerPort, name) make the sort order — and
hence the hash — depend on input order, so the distinctness side condition
cannot be dropped (see the counterexample). -/
theorem fingerprint_deterministic_on_distinct_keys :
    (∀ d1 d2 : DeploymentSpec, SpecEquiv d1 d2 → deploymentKeysNodup d1 →
       HashDeployment d1 = HashDeployment d2) ∧
    (∀ s1 s2 : ServiceSpec, s1.type = s2.type → s1.selector = s2.selector →
       s1.ports.Perm s2.ports → serviceKeysNodup s1 →
       HashService s1 = HashService s2) :=
  ⟨hashDeployment_perm_invariant, hashService_perm_invariant⟩

/-- C3 witness: two concretely permuted deployments (containers swapped,
env and ports permuted inside a container) and services (ports swapped),
all with distinct sort keys, hash identically. -/
theorem fingerprint_deterministic_on_distinct_keys_witness :
    SpecEquiv depPermuted1 depPermuted2 ∧ deploymentKeysNodup depPermuted1 ∧
    HashDeployment depPermuted1 = HashDeployment depPermuted2 ∧
    svcPermuted1.ports.Perm svcPermuted2.ports ∧ serviceKeysNodup svcPermuted1 ∧
    HashService svcPermuted1 = HashService svcPermuted2 := by
  have hse : SpecEquiv depPermuted1 depPermuted2 :=
    ⟨rfl, rfl, rfl, rfl, [wContainerA2, wContainerB],
     List.Forall₂.cons ⟨rfl, rfl, rfl, List.Perm.swap _ _ _, List.Perm.swap _ _ _⟩
       (List.Forall₂.cons ⟨rfl, rfl, rfl, List.Perm.refl _, List.Perm.refl _⟩
         List.Forall₂.nil),
     List.Perm.swap _ _ _⟩
  have hnd : deploymentKeysNodup depPermuted1 := by decide
  have hsp : svcPermuted1.ports.Perm svcPermuted2.ports := List.Perm.swap _ _ _
  have hsnd : serviceKeysNodup svcPermuted1 := by decide
  exact ⟨hse, hnd, fingerprint_deterministic_on_distinct_keys.1 _ _ hse hnd,
         hsp, hsnd, fingerprint_deterministic_on_distinct_keys.2 _ _ rfl rfl hsp hsnd⟩

/-- C3 counterexample: the same workload with two ports that differ only in
protocol (a legal spec: TCP and UDP on port 80), presented in the two input
orders, is a permutation instance in the claim's sense but produces two
DIFFERENT hashes — determinism for "arbitrarily permuted input orders" is
false because protocol is outside the (containerPort, name) ordering tuple. -/
theorem hash_not_permutation_invariant :
    SpecEquiv depPortsTU depPortsUT ∧
    HashDeployment depPortsTU ≠ HashDeployment depPortsUT := by
  refine ⟨⟨rfl, rfl, rfl, rfl, depPortsUT.template.containers, ?_, List.Perm.refl _⟩,
    by decide⟩
  exact List.Forall₂.cons ⟨rfl, rfl, rfl, List.Perm.refl _, List.Perm.swap _ _ _⟩
    List.Forall₂.nil


theorem fingerprintContainer_stripVF (c : Container) :
    fingerprintContainer { c with env := c.env.map (fun e => { e with valueFrom := none }) } =
      fingerprintContainer c := by
  simp only [fingerprintContainer, List.map_map]
  rfl

/-- HashDeployment depends only on the spec with indirect env sources
erased: the ValueFrom reference of an env var contributes nothing. -/
theorem hashDeployment_ignores_valueFrom (d : DeploymentSpec) :
    HashDeployment (stripValueFrom d) = HashDeployment d := by
  have htpl : fingerprintPodTemplate (stripValueFrom d).template =
      fingerprintPodTemplate d.template := by
    simp only [fingerprintPodTemplate, stripValueFrom, List.map_map]
    congr 1
    apply List.map_congr_left
    intro c _
    exact fingerprintContainer_stripVF c
  have hrep : (stripValueFrom d).replicas = d.replicas := rfl
  have hstrat : (stripValueFrom d).strategy = d.strategy := rfl
  have hcanon : deploymentCanonicalFingerprint (stripValueFrom d) =
      deploymentCanonicalFingerprint d := by
    simp only [deploymentCanonicalFingerprint, htpl, hrep, hstrat]
  rw [HashDeployment, HashDeployment, serializeDeployment, serializeDeployment, hcanon]

/-- C4 (amended): only the indirect reference itself is excluded from the
fingerprint — two specs that agree after erasing every env var's ValueFrom
hash identically (so changing WHICH secret/config is referenced never
changes the hash); the entry itself is kept (name, with the empty literal
value omitted by omitempty), so adding, removing or renaming an
indirectly-sourced entry DOES change the serialized fingerprint
(see the counterexample). -/
theorem valueFrom_irrelevant_to_hash (d1 d2 : DeploymentSpec)
    (h : stripValueFrom d1 = stripValueFrom d2) :
    HashDeployment d1 = HashDeployment d2 := by
  rw [← hashDeployment_ignores_valueFrom d1, ← hashDeployment_ignores_valueFrom d2, h]

/-- C4 witness: the same workload referencing two different secrets
indirectly hashes identically. -/
theorem valueFrom_irrelevant_to_hash_witness :
    stripValueFrom depEnvIndirect = stripValueFrom depEnvIndirect2 ∧
    HashDeployment depEnvIndirect = HashDeployment depEnvIndirect2 :=
  ⟨by decide, valueFrom_irrelevant_to_hash depEnvIndirect depEnvIndirect2 (by decide)⟩

/-- C4 counterexample: an env entry with only an indirect source is NOT
dropped from the fingerprint — adding it changes the hash (its name is
serialized), contradicting "the entry is dropped entirely ... adding,
removing, or renaming such an entry does not change the hash". -/
theorem indirect_env_entry_not_dropped :
    HashDeployment depEnvIndirect ≠ HashDeployment depNoEnv := by decide

/-! ## Length facts about the canonical encoding -/

theorem joinComma_length : ∀ l : List String,
    (joinComma l).length = (l.map String.length).sum + (l.length - 1)
  | [] => rfl
  | [x] => by simp [joinComma]
  | x :: y :: rest => by
    rw [joinComma, String.length_append, String.length_append,
      joinComma_length (y :: rest)]
    simp only [List.map_cons, List.sum_cons, List.length_cons]
    have hc : ("," : String).length = 1 := rfl
    omega

theorem serializeStrMap_length (m : List (String × String)) :
    (serializeStrMap m).length =
      2 + (m.map (fun kv => (jstr kv.1).length + 1 + (jstr kv.2).length)).sum +
        (m.length - 1) := by
  have hperm := sortBy_perm strPairLess m
  rw [serializeStrMap, String.length_append, String.length_append, joinComma_length,
    List.map_map]
  have h1 : ((sortBy strPairLess m).map
      (String.length ∘ fun kv => jstr kv.1 ++ ":" ++ jstr kv.2)).sum =
      (m.map (String.length ∘ fun kv => jstr kv.1 ++ ":" ++ jstr kv.2)).sum :=
    (hperm.map _).sum_eq
  have h2 : (m.map (String.length ∘ fun kv => jstr kv.1 ++ ":" ++ jstr kv.2)) =
      m.map (fun kv => (jstr kv.1).length + 1 + (jstr kv.2).length) := by
    apply List.map_congr_left
    intro kv _
    have hc : (":" : String).length = 1 := rfl
    simp [Function.comp, String.length_append, hc]
  have h3 : ("\x7b" : String).length = 1 := rfl
  have h4 : ("\x7d" : String).length = 1 := rfl
  rw [h1, h2, List.length_map, hperm.length_eq, h3, h4]
  omega

theorem serializeStrMap_extra_entry_length (m : List (String × String)) (k : String) :
    (serializeStrMap ((k, "") :: m)).length =
      (serializeStrMap m).length + (jstr k).length + 3 +
        (if m = [] then 0 else 1) := by
  rw [serializeStrMap_length, serializeStrMap_length]
  simp only [List.map_cons, List.sum_cons, List.length_cons]
  have h5 : (jstr "").length = 2 := rfl
  rcases m with _ | ⟨p, rest⟩
  · simp [h5]
    omega
  · simp only [List.length_cons, if_neg (by simp : ¬ (p :: rest : List (String × String)) = [])]
    rw [h5]
    omega

theorem jstr_length_ge_two (k : String) : 2 ≤ (jstr k).length := by
  rw [jstr, String.length_append, String.length_append]
  have h1 : ("\"" : String).length = 1 := rfl
  omega

/-- C5 (amended): the canonical serialization distinguishes empty-string
from absence for MAP entries (pod-template labels/annotations, service
selector): adding an entry with an empty-string value always changes the
serialized bytes (its length grows), and concretely changes the hash. It
does NOT distinguish them for omitempty-tagged scalar fields: an env var
with a literal empty value serializes exactly like one whose literal value
is absent (indirectly sourced), so those two specs hash identically. -/
theorem empty_map_values_distinguished_fields_not :
    (∀ (m : List (String × String)) (k : String),
       serializeStrMap ((k, "") :: m) ≠ serializeStrMap m) ∧
    HashDeployment depLabelEmpty ≠ HashDeployment emptyDeployment ∧
    HashDeployment depEnvEmptyLiteral = HashDeployment depEnvIndirect := by
  refine ⟨?_, by decide, by decide⟩
  intro m k heq
  have hlen := congrArg String.length heq
  rw [serializeStrMap_extra_entry_length] at hlen
  have hk := jstr_length_ge_two k
  have h01 : (if m = [] then 0 else 1) = 0 ∨ (if m = [] then 0 else 1) = 1 := by
    split <;> simp
  rcases h01 with h | h <;> rw [h] at hlen <;> omega

/-- C5 counterexample: two specs that differ exactly in "literal empty
value" vs "literal value absent (indirect source)" — the claim says their
hashes must differ; the code produces identical serializations and hashes
(the omitempty tag drops the empty value member). -/
theorem empty_value_vs_absent_same_hash :
    depEnvEmptyLiteral ≠ depEnvIndirect ∧
    HashDeployment depEnvEmptyLiteral = HashDeployment depEnvIndirect :=
  ⟨by decide, by decide⟩

theorem jsonObj2_len (b c : String) :
    (jsonObj [some b, some c]).length = b.length + c.length + 3 := by
  have h : jsonObj [some b, some c] = "\x7b" ++ (b ++ "," ++ c) ++ "\x7d" := rfl
  rw [h]
  simp only [String.length_append]
  have h1 : ("\x7b" : String).length = 1 := rfl
  have h2 : ("\x7d" : String).length = 1 := rfl
  have h3 : ("," : String).length = 1 := rfl
  omega

theorem jsonObj3_len (a b c : String) :
    (jsonObj [some a, some b, some c]).length = a.length + b.length + c.length + 4 := by
  have h : jsonObj [some a, some b, some c] =
      "\x7b" ++ (a ++ "," ++ (b ++ "," ++ c)) ++ "\x7d" := rfl
  rw [h]
  simp only [String.length_append]
  have h1 : ("\x7b" : String).length = 1 := rfl
  have h2 : ("\x7d" : String).length = 1 := rfl
  have h3 : ("," : String).length = 1 := rfl
  omega

theorem serializeDeploymentFingerprint_replicas_length (f : DeploymentFingerprint)
    (n : Int) :
    (serializeDeploymentFingerprint { f with replicas := some n }).length =
      (serializeDeploymentFingerprint { f with replicas := none }).length +
        (toString n).length + 12 := by
  have hs : serializeDeploymentFingerprint { f with replicas := some n } =
      jsonObj [some (jstr "replicas" ++ ":" ++ toString n),
        some (jstr "strategy" ++ ":" ++ serializeStrategy f.strategy),
        some (jstr "template" ++ ":" ++ serializePodTemplateFingerprint f.template)] := rfl
  have hn : serializeDeploymentFingerprint { f with replicas := none } =
      jsonObj [some (jstr "strategy" ++ ":" ++ serializeStrategy f.strategy),
        some (jstr "template" ++ ":" ++ serializePodTemplateFingerprint f.template)] := rfl
  rw [hs, hn, jsonObj3_len, jsonObj2_len]
  simp only [String.length_append]
  have h1 : (jstr "replicas").length = 10 := rfl
  have h2 : (":" : String).length = 1 := rfl
  omega

theorem serializeDeployment_replicas_length (d : DeploymentSpec) (n : Int) :
    (serializeDeployment { d with replicas := some n }).length =
      (serializeDeployment { d with replicas := none }).length +
        (toString n).length + 12 := by
  have h1 : serializeDeployment { d with replicas := some n } =
      serializeDeploymentFingerprint
        { deploymentCanonicalFingerprint { d with replicas := none } with
          replicas := some n } := rfl
  have h2 : serializeDeployment { d with replicas := none } =
      serializeDeploymentFingerprint
        { deploymentCanonicalFingerprint { d with replicas := none } with
          replicas := none } := rfl
  rw [h1, h2, serializeDeploymentFingerprint_replicas_length]

/-- C8: the canonical serialization represents "replicas unset" distinctly
from "replicas = 0": for every workload spec, the serialization with
replicas = n is exactly 12 + len(n) bytes longer than with replicas unset
(the `"replicas":n,` member is present exactly when the pointer is
non-nil), so the two serializations always differ, and concretely the
hashes differ. -/
theorem replicas_absent_vs_zero_distinct :
    (∀ (d : DeploymentSpec) (n : Int),
       (serializeDeployment { d with replicas := some n }).length =
         (serializeDeployment { d with replicas := none }).length +
           (toString n).length + 12) ∧
    (∀ d : DeploymentSpec,
       serializeDeployment { d with replicas := none } ≠
         serializeDeployment { d with replicas := some 0 }) ∧
    HashDeployment { emptyDeployment with replicas := some 0 } ≠
      HashDeployment emptyDeployment := by
  refine ⟨serializeDeployment_replicas_length, ?_, by decide⟩
  intro d heq
  have hlen := congrArg String.length heq
  rw [serializeDeployment_replicas_length d 0] at hlen
  have h0 : (toString (0 : Int)).length = 1 := rfl
  omega
